import Mathlib

/-!
Helm chart scaffolding (`pkg/chartutil/create.go`) and the ytt render adapter
(`pkg/yttengine/yttengine.go`).

A shallow embedding of the two Go source files, followed by theorems about it.

Conventions of the embedding:

* Go strings and byte slices are Lean `String`s; the only token searched for is
  ASCII, so matching on characters and matching on bytes agree.
* Go `error` values are modelled by their message; `nil` is `none`.
* The file system is an explicit state (`FS`) threaded through the operations of
  package `os`; a function that returns `(value, error)` and may have changed the
  file system before failing returns the new state next to the error.
* Path strings are parsed into lists of components (Unix separator), so that
  `filepath.Clean`, `filepath.Join` and `filepath.Abs` are computable.
* Writes to standard output (`fmt.Println`, `println`) are not part of the model.
-/

namespace Helm

/-- Go `error` values, identified by their message. -/
abbrev Error := String

/-! ## Package `strings` and `fmt` -/

/-- Left-to-right scan of `strings.ReplaceAll` for a non-empty `old`: at each
position not covered by an earlier match, an occurrence of `old` is replaced by
`new` and its remaining `skip` characters are dropped, so matches never overlap. -/
def replaceScan (old new : List Char) : Nat → List Char → List Char
  | _, [] => []
  | skip + 1, _ :: t => replaceScan old new skip t
  | 0, c :: t =>
    if old.isPrefixOf (c :: t) then new ++ replaceScan old new (old.length - 1) t
    else c :: replaceScan old new 0 t

/-- Go `strings.ReplaceAll(s, old, new)`: every non-overlapping instance of `old`
in `s`, found from the left, is replaced by `new`; an empty `old` matches at the
start of the string and after every character. -/
def ReplaceAll (s old new : String) : String :=
  if old.data = [] then ⟨new.data ++ s.data.foldr (fun c acc => c :: (new.data ++ acc)) []⟩
  else ⟨replaceScan old.data new.data 0 s.data⟩

/-- Go `strings.Contains(s, substr)`. -/
def Contains (s substr : String) : Prop := substr.data <:+: s.data

instance (s substr : String) : Decidable (Contains s substr) := by
  unfold Contains
  infer_instance

/-- Scan of `fmt.Sprintf` over the format string, for string operands. Only the
verbs `%s` and `%%` are interpreted (the format strings of these packages use no
other); a `%s` without operand prints `%!s(MISSING)` and operands left over are
reported in an `%!(EXTRA ...)` suffix, as in Go. -/
def sprintfScan : List Char → List String → List Char
  | [], [] => []
  | [], a :: args =>
    ("%!(EXTRA " ++ ", ".intercalate ((a :: args).map (fun x => "string=" ++ x)) ++ ")").data
  | '%' :: 's' :: rest, a :: args => a.data ++ sprintfScan rest args
  | '%' :: 's' :: rest, [] => "%!s(MISSING)".data ++ sprintfScan rest []
  | '%' :: '%' :: rest, args => '%' :: sprintfScan rest args
  | c :: rest, args => c :: sprintfScan rest args

/-- Go `fmt.Sprintf(format, args...)` with string operands. -/
def Sprintf (format : String) (args : List String) : String :=
  ⟨sprintfScan format.data args⟩

/-- Go `errors.Wrapf(err, format, args...)`: the formatted message, a colon, and
the message of the wrapped error. -/
def Wrapf (err : Error) (format : String) (args : List String) : Error :=
  Sprintf format args ++ ": " ++ err

/-- Go `errors.Errorf(format, args...)`. -/
def Errorf (format : String) (args : List String) : Error :=
  Sprintf format args

/-! ## Package `path/filepath` (Unix) -/

/-- An absolute, cleaned path: its components from the root; `[]` is `/`. -/
abbrev Path := List String

/-- Splits a character list at every `/`; `cur` holds the current component,
reversed. -/
def splitSepAux : List Char → List Char → List (List Char)
  | cur, [] => [cur.reverse]
  | cur, c :: cs =>
    if c = '/' then cur.reverse :: splitSepAux [] cs else splitSepAux (c :: cur) cs

/-- The components of a path string, empty components included. -/
def splitSep (s : String) : List String :=
  (splitSepAux [] s.data).map String.mk

/-- One step of `filepath.Clean` on a rooted path: empty and `.` components are
dropped, `..` removes the last component (and is dropped at the root). -/
def cleanStep (acc : Path) (elem : String) : Path :=
  if elem = "" ∨ elem = "." then acc
  else if elem = ".." then acc.dropLast
  else acc ++ [elem]

/-- Cleans the components `elems` on top of the cleaned path `base`. -/
def cleanOnto (base : Path) (elems : List String) : Path :=
  elems.foldl cleanStep base

/-- Go `filepath.Join(base, elems...)` for an absolute, cleaned `base`. -/
def Join (base : Path) (elems : List String) : Path :=
  elems.foldl (fun acc e => cleanOnto acc (splitSep e)) base

/-- Go `filepath.IsAbs`. -/
def IsAbs (s : String) : Bool :=
  s.data.head? = some '/'

/-- Go `filepath.Abs(dir)`: an absolute path is cleaned, a relative one is joined
to the working directory; it fails when the working directory cannot be found. -/
def Abs (cwd : Option Path) (dir : String) : Except Error Path :=
  if IsAbs dir then .ok (cleanOnto [] (splitSep dir))
  else
    match cwd with
    | none => .error "getwd: no such file or directory"
    | some wd => .ok (Join wd [dir])

/-- The path string of a cleaned absolute path. -/
def render (p : Path) : String :=
  if p = [] then "/" else String.join (p.map (fun c => "/" ++ c))

/-! ## Package `os` and `io/ioutil`: the file system -/

/-- What a path holds: a regular file with its content, or a directory. -/
inductive Node where
  | file (content : String)
  | dir
  deriving DecidableEq, Repr

/-- Go `FileInfo.IsDir`. -/
def Node.IsDir : Node → Bool
  | .dir => true
  | .file _ => false

/-- The file-system state: the node at each path, the paths at which creating or
writing is refused (permissions, quota), and the working directory of the
process (`none` when it cannot be determined). -/
structure FS where
  node : Path → Option Node
  denied : Path → Bool
  cwd : Option Path

/-- The state with `n` stored at `p`. -/
def FS.set (fs : FS) (p : Path) (n : Node) : FS :=
  { fs with node := fun q => if q = p then some n else fs.node q }

/-- Go `os.Stat`: the node at the path, or an error when there is none (other
failures of `stat` are not modelled). -/
def Stat (fs : FS) (p : Path) : Except Error Node :=
  match fs.node p with
  | some n => .ok n
  | none => .error "no such file or directory"

/-- Go `os.Mkdir`: creates one directory; fails when the path is taken, when the
parent is not a directory, or when creation is refused. -/
def Mkdir (p : Path) (fs : FS) : Option Error × FS :=
  match fs.node p with
  | some _ => (some "file exists", fs)
  | none =>
    match fs.node p.dropLast with
    | some .dir =>
      if fs.denied p then (some "permission denied", fs) else (none, fs.set p .dir)
    | some (.file _) => (some "not a directory", fs)
    | none => (some "no such file or directory", fs)

/-- Go `os.MkdirAll` on the reversed component list: an existing directory is
success, an existing file is an error; otherwise the parent is made first
(unless it is the root) and then the directory itself with `Mkdir`, whose error
is forgiven if the directory is there after all. -/
def MkdirAllRev : List String → FS → Option Error × FS
  | [], fs =>
    match fs.node [] with
    | some .dir => (none, fs)
    | some (.file _) => (some "not a directory", fs)
    | none => Mkdir [] fs
  | c :: parent, fs =>
    match fs.node (c :: parent).reverse with
    | some .dir => (none, fs)
    | some (.file _) => (some "not a directory", fs)
    | none =>
      match (if parent = [] then (none, fs) else MkdirAllRev parent fs) with
      | (some err, fs1) => (some err, fs1)
      | (none, fs1) =>
        match Mkdir (c :: parent).reverse fs1 with
        | (none, fs2) => (none, fs2)
        | (some err, fs2) =>
          match fs2.node (c :: parent).reverse with
          | some .dir => (none, fs2)
          | _ => (some err, fs2)

/-- Go `os.MkdirAll(p, perm)`. -/
def MkdirAll (p : Path) (fs : FS) : Option Error × FS :=
  MkdirAllRev p.reverse fs

/-- Go `ioutil.WriteFile(p, data, perm)`: creates the file or truncates an
existing one and writes `data`; fails on a directory, under a missing or
non-directory parent, or when writing is refused. -/
def WriteFile (p : Path) (data : String) (fs : FS) : Option Error × FS :=
  match fs.node p with
  | some .dir => (some "is a directory", fs)
  | some (.file _) =>
    if fs.denied p then (some "permission denied", fs) else (none, fs.set p (.file data))
  | none =>
    match fs.node p.dropLast with
    | some .dir =>
      if fs.denied p then (some "permission denied", fs) else (none, fs.set p (.file data))
    | some (.file _) => (some "not a directory", fs)
    | none => (some "no such file or directory", fs)

/-! ## Package `chart`: the data model -/

/-- Modelled from the spec: the values of a `chartutil.Values` table (the type is
declared outside the two source files): a scalar, a sequence or a nested table. -/
inductive Value where
  | scalar (s : String)
  | seq (xs : List Value)
  | table (kvs : List (String × Value))

/-- Modelled from the spec: `chartutil.Values`, a table from keys to values. -/
abbrev Values := List (String × Value)

/-- Modelled from the spec: `chart.File` (declared outside the two source files),
a template with its name (a relative path) and its raw source. -/
structure File where
  Name : String
  Data : String
  deriving DecidableEq, Repr

/-- Modelled from the spec: `chart.Metadata` (declared outside the two source
files), the name, version, application version and type of a chart. -/
structure Metadata where
  Name : String
  Version : String
  AppVersion : String
  Kind : String
  deriving DecidableEq, Repr

/-- Modelled from the spec: `chart.Chart` (declared outside the two source
files): the metadata (a pointer, possibly nil), the ordered templates, the default
values and the ordered dependency charts. -/
inductive Chart where
  | mk (Metadata : Option Metadata) (Templates : List File) (Values : Values)
      (dependencies : List Chart)

/-- The field `Metadata` of a chart. -/
def Chart.Metadata : Chart → Option Helm.Metadata
  | .mk m _ _ _ => m

/-- The field `Templates` of a chart. -/
def Chart.Templates : Chart → List File
  | .mk _ ts _ _ => ts

/-- The field `Values` of a chart. -/
def Chart.Values : Chart → Helm.Values
  | .mk _ _ vs _ => vs

/-- The dependency charts of a chart. -/
def Chart.Dependencies : Chart → List Chart
  | .mk _ _ _ ds => ds

/-- The assignment `c.Metadata = m`. -/
def Chart.setMetadata : Chart → Option Helm.Metadata → Chart
  | .mk _ ts vs ds, m => .mk m ts vs ds

/-- The assignment `c.Templates = ts`. -/
def Chart.setTemplates : Chart → List File → Chart
  | .mk m _ vs ds, ts => .mk m ts vs ds

/-- Modelled from the spec: the accessor `Chart.Name()` (declared outside the two
source files): the name is an attribute of the chart's metadata, and a chart
without metadata has the empty name. -/
def Chart.Name (c : Chart) : String :=
  match c.Metadata with
  | none => ""
  | some m => m.Name

mutual
/-- The templates of every node of the chart tree: those of the chart itself,
then those of its dependencies, recursively. -/
def Chart.allTemplates : Chart → List File
  | .mk _ ts _ ds => ts ++ allTemplatesOfList ds
/-- The templates of every node of a list of chart trees. -/
def allTemplatesOfList : List Chart → List File
  | [] => []
  | c :: cs => c.allTemplates ++ allTemplatesOfList cs
end

/-! ## Package `chartutil`: `create.go` -/

/-- ChartfileName is the default Chart file name. -/
def ChartfileName : String := "Chart.yaml"
/-- ValuesfileName is the default values file name. -/
def ValuesfileName : String := "values.yaml"
/-- TemplatesDir is the relative directory name for templates. -/
def TemplatesDir : String := "templates"
/-- ChartsDir is the relative directory name for charts dependencies. -/
def ChartsDir : String := "charts"
/-- IgnorefileName is the name of the Helm ignore file. -/
def IgnorefileName : String := ".helmignore"
/-- IngressFileName is the name of the example ingress file. -/
def IngressFileName : String := "ingress.yaml"
/-- DeploymentName is the name of the example deployment file. -/
def DeploymentName : String := "deployment.yaml"
/-- ServiceName is the name of the example service file. -/
def ServiceName : String := "service.yaml"
/-- NotesName is the name of the example NOTES.txt file. -/
def NotesName : String := "NOTES.txt"
/-- HelpersStarName is the name of the example Starlark helpers file. -/
def HelpersStarName : String := "helpers.star"
/-- HelpersLibName is the name of the example helpers library file. -/
def HelpersLibName : String := "helpers.lib.yml"

/-- Format string of the generated Chart.yaml (one %s verb, the chart name). -/
def defaultChartfile : String := String.join [
  "apiVersion: v1\n",
  "name: %s\n",
  "description: A Helm chart for Kubernetes\n",
  "\n",
  "# A chart can be either an 'application' or a 'library' chart.\n",
  "#\n",
  "# Application charts are a collection of templates that can be packaged into versioned archives\n",
  "# to be deployed.\n",
  "#\n",
  "# Library charts provide useful utilities or functions for the chart developer. They're included as\n",
  "# a dependency of application charts to inject those utilities and functions into the rendering\n",
  "# pipeline. Library charts do not define any templates and therefore cannot be deployed.\n",
  "type: application\n",
  "\n",
  "# This is the chart version. This version number should be incremented each time you make changes\n",
  "# to the chart and its templates, including the app version.\n",
  "version: 0.1.0\n",
  "\n",
  "# This is the version number of the application being deployed. This version number should be\n",
  "# incremented each time you make changes to the application.\n",
  "appVersion: 1.16.0\n"
  ]

/-- Format string of the generated values.yaml (one %s verb, the chart name). -/
def defaultValues : String := String.join [
  "#! Default values for %s.\n",
  "#@data/values\n",
  "---\n",
  "Release:\n",
  "  Name: release-name\n",
  "  Service: release-sv\n",
  "  Namespace: release-ns\n",
  "Chart:\n",
  "  Name: chart-name\n",
  "  AppVersion: chart-appver\n",
  "  Version: chart-ver\n",
  "\n",
  "nameOverride:\n",
  "replicaCount: 1\n",
  "image:\n",
  "  repository: nginx\n",
  "  tag: stable\n",
  "  pullPolicy: IfNotPresent\n",
  "service:\n",
  "  name: nginx\n",
  "  type: ClusterIP\n",
  "  externalPort: 80\n",
  "  internalPort: 80\n",
  "ingress:\n",
  "  enabled: false\n",
  "  hosts:\n",
  "  - chart-example.local\n",
  "  annotations:\n",
  "    #! kubernetes.io/ingress.class: nginx\n",
  "    #! kubernetes.io/tls-acme: \"true\"\n",
  "  tls:\n",
  "    #! Secrets must be manually created in the namespace.\n",
  "    #! - secretName: chart-example-tls\n",
  "    #!   hosts:\n",
  "    #!     - chart-example.local\n"
  ]

/-- Content of the generated .helmignore. -/
def defaultIgnore : String := String.join [
  "# Patterns to ignore when building packages.\n",
  "# This supports shell glob matching, relative path matching, and\n",
  "# negation (prefixed with !). Only one pattern per line.\n",
  ".DS_Store\n",
  "# Common VCS dirs\n",
  ".git/\n",
  ".gitignore\n",
  ".bzr/\n",
  ".bzrignore\n",
  ".hg/\n",
  ".hgignore\n",
  ".svn/\n",
  "# Common backup files\n",
  "*.swp\n",
  "*.bak\n",
  "*.tmp\n",
  "*~\n",
  "# Various IDEs\n",
  ".project\n",
  ".idea/\n",
  "*.tmproj\n"
  ]

/-- Source of the generated ingress.yaml. -/
def defaultIngress : String := String.join [
  "#@ load(\"@ytt:data\", \"data\")\n",
  "#@ load(\"helpers.star\", \"fullname\")\n",
  "#@ load(\"helpers.lib.yml\", \"labels\")\n",
  "\n",
  "#@ if/end data.values.ingress.enabled:\n",
  "---\n",
  "apiVersion: extensions/v1beta1\n",
  "kind: Ingress\n",
  "metadata:\n",
  "  name: #@ fullname(data.values)\n",
  "  labels: #@ labels(data.values)\n",
  "  #@ if/end data.values.ingress.annotations:\n",
  "  annotations: #@ data.values.ingress.annotations\n",
  "spec:\n",
  "  rules:\n",
  "    #@ for/end host in data.values.ingress.hosts:\n",
  "    - host: #@ host\n",
  "      http:\n",
  "        paths:\n",
  "          - path: /\n",
  "            backend:\n",
  "              serviceName: #@ fullname(data.values)\n",
  "              servicePort: #@ data.values.service.externalPort\n",
  "  #@ if/end data.values.ingress.tls:\n",
  "  tls: #@ data.values.ingress.tls\n",
  "\n"
  ]

/-- Source of the generated deployment.yaml. -/
def defaultDeployment : String := String.join [
  "#! example is based on the following github repo: https://bit.ly/2EoYwuN\n",
  "\n",
  "#@ load(\"@ytt:data\", \"data\")\n",
  "#@ load(\"helpers.star\", \"fullname\", \"name\")\n",
  "#@ load(\"helpers.lib.yml\", \"labels\")\n",
  "\n",
  "apiVersion: extensions/v1beta1\n",
  "kind: Deployment\n",
  "metadata:\n",
  "  name: #@ fullname(data.values)\n",
  "  labels: #@ labels(data.values)\n",
  "spec:\n",
  "  replicas: #@ data.values.replicaCount\n",
  "  template:\n",
  "    metadata:\n",
  "      labels:\n",
  "        app: #@ name(data.values)\n",
  "        release: #@ data.values.Release.Name\n",
  "    spec:\n",
  "      containers:\n",
  "      - name: #@ data.values.Chart.Name\n",
  "        image: #@ \"\x7b\x7d-\x7b\x7d\".format(data.values.image.repository, data.values.image.tag)\n",
  "        imagePullPolicy: #@ data.values.image.pullPolicy\n",
  "        ports:\n",
  "        - containerPort: #@ data.values.service.internalPort\n",
  "        livenessProbe:\n",
  "          httpGet:\n",
  "            path: /\n",
  "            port: #@ data.values.service.internalPort\n",
  "        readinessProbe:\n",
  "          httpGet:\n",
  "            path: /\n",
  "            port: #@ data.values.service.internalPort\n",
  "\n"
  ]

/-- Source of the generated service.yaml. -/
def defaultService : String := String.join [
  "#@ load(\"@ytt:data\", \"data\")\n",
  "#@ load(\"helpers.star\", \"fullname\", \"name\")\n",
  "#@ load(\"helpers.lib.yml\", \"labels\")\n",
  "\n",
  "apiVersion: v1\n",
  "kind: Service\n",
  "metadata:\n",
  "  name: #@ fullname(data.values)\n",
  "  labels: #@ labels(data.values)\n",
  "spec:\n",
  "  type: #@ data.values.service.type\n",
  "  ports:\n",
  "    - port: #@ data.values.service.externalPort\n",
  "      targetPort: #@ data.values.service.internalPort\n",
  "      protocol: TCP\n",
  "      name: #@ data.values.service.name\n",
  "  selector:\n",
  "    app: #@ name(data.values)\n",
  "    release: #@ data.values.Release.Name\n",
  "\n"
  ]

/-- Source of the generated NOTES.txt. -/
def defaultNotes : String := String.join [
  "(@ load(\"@ytt:data\", \"data\") @)\n",
  "(@ load(\"helpers.star\", \"fullname\", \"name\") -@)\n",
  "\n",
  "1. Get the application URL by running these commands:\n",
  "(@- if data.values.ingress.enabled: @)\n",
  "  (@- for h in data.values.ingress.hosts: @)\n",
  "    http(@= \"s\" if data.values.ingress.tls else \"\" @)://(@= h @)\n",
  "  (@ end @)\n",
  "(@ elif data.values.service.type == \"NodePort\": @)\n",
  "  export NODE_PORT=$(kubectl get --namespace (@= data.values.Release.Namespace @) -o jsonpath=\"\x7b.spec.ports[0].nodePort\x7d\" services (@= fullname(data.values) @))\n",
  "  export NODE_IP=$(kubectl get nodes --namespace (@= data.values.Release.Namespace @) -o jsonpath=\"\x7b.items[0].status.addresses[0].address\x7d\")\n",
  "  echo http://$NODE_IP:$NODE_PORT\n",
  "(@- elif data.values.service.type == \"LoadBalancer\": @)\n",
  "NOTE: It may take a few minutes for the LoadBalancer IP to be available.\n",
  "You can watch the status of by running 'kubectl get svc -w (@= fullname(data.values) @)'\n",
  "  export SERVICE_IP=$(kubectl get svc --namespace (@= data.values.Release.Namespace @) (@= fullname(data.values) @) -o jsonpath='\x7b.status.loadBalancer.ingress[0].ip\x7d')\n",
  "  echo http://$SERVICE_IP:(@= str(data.values.service.externalPort) @)\n",
  "(@- elif data.values.service.type == \"ClusterIP\": @)\n",
  "  export POD_NAME=$(kubectl get pods --namespace (@= data.values.Release.Namespace @) -l \"app.kubernetes.io/name=(@= name(data.values) @),app.kubernetes.io/instance=(@= data.values.Release.Name @)\" -o jsonpath=\"\x7b.items[0].metadata.name\x7d\")\n",
  "  echo \"Visit http://127.0.0.1:8080 to use your application\"\n",
  "  kubectl port-forward $POD_NAME 8080:80\n",
  "(@ end -@)\n",
  "\n"
  ]

/-- Source of the generated helpers.star. -/
def defaultHelpersStar : String := String.join [
  "def name(vars):\n",
  "  return kube_clean_name(vars.Chart.Name or vars.Values.nameOverride)\n",
  "end\n",
  "\n",
  "def fullname(vars):\n",
  "  name = vars.Chart.Name or vars.Values.nameOverride\n",
  "  return kube_clean_name(\"\x7b\x7d-\x7b\x7d\".format(vars.Release.Name, name))\n",
  "end\n",
  "\n",
  "def kube_clean_name(name):\n",
  "  return name[:63].rstrip(\"-\")\n",
  "end\n"
  ]

/-- Source of the generated helpers.lib.yml. -/
def defaultHelpersLib : String := String.join [
  "#@ load(\"helpers.star\", \"name\")\n",
  "\n",
  "#@ def labels(vars):\n",
  "app: #@ name(vars)\n",
  "chart: #@ \"\x7b\x7d-\x7b\x7d\".format(vars.Chart.Name, vars.Chart.Version).replace(\"+\", \"_\")\n",
  "release: #@ vars.Release.Name\n",
  "heritage: #@ vars.Release.Service\n",
  "#@ end\n"
  ]
/-- The placeholder replaced by the chart name. -/
def chartNameToken : String := "<CHARTNAME>"

/-- Go `transform`: a string replacement of the placeholder in `src` by the
replacement string. -/
def transform (src replacement : String) : String :=
  ReplaceAll src chartNameToken replacement

/-- The strings `p0 ++ sep ++ p1 ++ ... ++ sep ++ pn`; empty for no pieces. -/
def interleave (sep : String) : List String → String
  | [] => ""
  | [p] => p
  | p :: q :: rest => p ++ sep ++ interleave sep (q :: rest)

/-- The chart `CreateFrom` hands to `SaveDir`: the loaded chart after its
metadata has been replaced by `chartfile` and each template rewritten by
`transform` with `schart.Name()`, read after the assignment of the metadata. -/
def createFromChart (chartfile : Option Metadata) (schart : Chart) : Chart :=
  let schart := schart.setMetadata chartfile
  let updatedTemplates := schart.Templates.map
    (fun template => ({ Name := template.Name, Data := transform template.Data schart.Name } : File))
  schart.setTemplates updatedTemplates

/-- Go `CreateFrom(chartfile, dest, src)`: creates a new chart, scaffolded from
the chart at `src`. The loader (`loader.Load`) and the directory writer
(`SaveDir`) are declared outside this file and are parameters; `ρ` is the outcome
of `SaveDir`. -/
def CreateFrom {ρ : Type} (Load : String → Except Error Chart) (SaveDir : Chart → String → ρ)
    (chartfile : Option Metadata) (dest src : String) : Except Error ρ :=
  match Load src with
  | .error err => .error (Wrapf err "could not load %s" [src])
  | .ok schart => .ok (SaveDir (createFromChart chartfile schart) dest)

/-- The result of `Create`: the returned path string, the returned error and the
file system left behind. -/
structure CreateResult where
  path : String
  err : Option Error
  fs : FS

/-- The loop of `Create` over the sub-directories: each is made with `MkdirAll`,
and the first error ends the loop. -/
def mkSubdirs (cdir : Path) : List String → FS → Option Error × FS
  | [], fs => (none, fs)
  | d :: ds, fs =>
    match MkdirAll (Join cdir [d]) fs with
    | (some err, fs1) => (some err, fs1)
    | (none, fs1) => mkSubdirs cdir ds fs1

/-- The table `files` of `Create`: each scaffold path with its content. -/
def scaffoldFiles (cdir : Path) (name : String) : List (Path × String) :=
  [ (Join cdir [ChartfileName], Sprintf defaultChartfile [name]),
    (Join cdir [TemplatesDir, ValuesfileName], Sprintf defaultValues [name]),
    (Join cdir [IgnorefileName], defaultIgnore),
    (Join cdir [TemplatesDir, IngressFileName], transform defaultIngress name),
    (Join cdir [TemplatesDir, DeploymentName], transform defaultDeployment name),
    (Join cdir [TemplatesDir, ServiceName], transform defaultService name),
    (Join cdir [TemplatesDir, NotesName], transform defaultNotes name),
    (Join cdir [TemplatesDir, HelpersStarName], transform defaultHelpersStar name),
    (Join cdir [TemplatesDir, HelpersLibName], transform defaultHelpersLib name) ]

/-- The loop of `Create` over the files: a path that `os.Stat` finds is skipped,
any other is written with `ioutil.WriteFile`, and the first error ends the loop. -/
def writeFiles : List (Path × String) → FS → Option Error × FS
  | [], fs => (none, fs)
  | file :: rest, fs =>
    match Stat fs file.1 with
    | .ok _ => writeFiles rest fs
    | .error _ =>
      match WriteFile file.1 file.2 fs with
      | (some err, fs1) => (some err, fs1)
      | (none, fs1) => writeFiles rest fs1

/-- Go `Create(name, dir)`: creates a new chart in a directory. -/
def Create (name dir : String) (fs : FS) : CreateResult :=
  match Abs fs.cwd dir with
  | .error err => ⟨"", some err, fs⟩
  | .ok path =>
    match Stat fs path with
    | .error err => ⟨render path, some err, fs⟩
    | .ok fi =>
      if !fi.IsDir then
        ⟨render path, some (Errorf "no such directory %s" [render path]), fs⟩
      else
        let cdir := Join path [name]
        if (match Stat fs cdir with
            | .ok fi => !fi.IsDir
            | .error _ => false) then
          ⟨render cdir,
            some (Errorf "file %s already exists and is not a directory" [render cdir]), fs⟩
        else
          match MkdirAll cdir fs with
          | (some err, fs1) => ⟨render cdir, some err, fs1⟩
          | (none, fs1) =>
            match mkSubdirs cdir [TemplatesDir, ChartsDir] fs1 with
            | (some err, fs2) => ⟨render cdir, some err, fs2⟩
            | (none, fs2) =>
              match writeFiles (scaffoldFiles cdir name) fs2 with
              | (some err, fs3) => ⟨render cdir, some err, fs3⟩
              | (none, fs3) => ⟨render cdir, none, fs3⟩

/-! ## Package `yttengine`: `yttengine.go` -/

/-- A file of the backend's output (`files.OutputFile` of ytt): its relative
path and its bytes. -/
structure OutputFile where
  RelativePath : String
  Bytes : String
  deriving DecidableEq, Repr

/-- The result of a backend run (`template.TemplateOutput` of ytt): the output
files and the template error, if any. -/
structure TemplateOutput where
  Files : List OutputFile
  Err : Option Error
  deriving DecidableEq, Repr

/-- The template backend (ytt) in a given file-system state: `Input` reads the
files at the given paths into the backend's input `ι` or fails, `RunWithFiles`
evaluates an input. -/
structure Backend (ι : Type) where
  Input : List String → Except Error ι
  RunWithFiles : ι → TemplateOutput

/-- A Go `map[string]string`: an association list with distinct keys. -/
abbrev GoMap := List (String × String)

/-- The assignment `m[k] = v`. -/
def GoMap.set (m : GoMap) (k v : String) : GoMap :=
  (k, v) :: m.filter (fun e => e.1 ≠ k)

/-- The lookup `m[k]`, `none` when the key is absent. -/
def GoMap.get? (m : GoMap) (k : String) : Option String :=
  (m.find? (fun e => e.1 = k)).map (fun e => e.2)

/-- The keys of the map. -/
def GoMap.keys (m : GoMap) : List String :=
  m.map (fun e => e.1)

/-- The loop of `Render` over the output files: `result[output.RelativePath()] =
string(output.Bytes())` for each, in order, starting from the map `m0`. -/
def collectOutputs (m0 : GoMap) (files : List OutputFile) : GoMap :=
  files.foldl (fun m output => GoMap.set m output.RelativePath output.Bytes) m0

/-- YttEngine is the render engine; neither field is read by `Render`. -/
structure YttEngine where
  Strict : Bool
  LintMode : Bool

/-- The list `paths` that `Render` builds from the chart's templates. -/
def renderPaths (chrt : Chart) : List String :=
  chrt.Templates.map (fun f => Sprintf "chart/%s" [f.Name])

/-- Go `YttEngine.Render(chrt, values)`: the returned map (`none` is `nil`) and
the returned error. -/
def YttEngine.Render {ι : Type} (_e : YttEngine) (be : Backend ι) (chrt : Chart)
    (_values : Values) : Option GoMap × Option Error :=
  let paths := renderPaths chrt
  match be.Input paths with
  | .error err => (none, some err)
  | .ok templates =>
    let outputs := be.RunWithFiles templates
    let result := collectOutputs [] outputs.Files
    (some result, none)

/-- Go `Render(chrt, values)`: `Render` of a new engine. -/
def Render {ι : Type} (be : Backend ι) (chrt : Chart) (values : Values) :
    Option GoMap × Option Error :=
  YttEngine.Render { Strict := false, LintMode := false } be chrt values

/-! ## Concrete inputs used by the evaluations below -/

/-- A starter chart named `starter` with one template that mentions the
placeholder, and no dependencies. -/
def starterChart : Chart :=
  .mk (some ⟨"starter", "0.1.0", "1.0", "application"⟩)
    [⟨"templates/service.yaml", "name: <CHARTNAME>-svc"⟩] [] []

/-- The metadata of a new chart named `demo`. -/
def demoMetadata : Metadata := ⟨"demo", "0.2.0", "2.0", "application"⟩

/-- A chart `web` with one template of its own and one dependency `svc` that has
one template. -/
def webChart : Chart :=
  .mk (some ⟨"web", "0.1.0", "1.0", "application"⟩)
    [⟨"templates/web.yaml", "kind: Deployment"⟩] []
    [.mk (some ⟨"svc", "0.1.0", "1.0", "application"⟩)
      [⟨"templates/svc.yaml", "kind: Service"⟩] [] []]

/-- A backend whose input is the list of paths it was given and whose run emits
one output file per input path. -/
def echoBackend : Backend (List String) :=
  { Input := fun paths => .ok paths,
    RunWithFiles := fun paths =>
      { Files := paths.map (fun p => ⟨p, "rendered"⟩), Err := none } }

/-- A backend whose run reports a template error and emits no output file. -/
def failingBackend : Backend (List String) :=
  { Input := fun paths => .ok paths,
    RunWithFiles := fun _ => { Files := [], Err := some "template error" } }

/-- A backend whose run emits two files under one relative path and a third under
another. -/
def repeatingBackend : Backend (List String) :=
  { Input := fun paths => .ok paths,
    RunWithFiles := fun _ =>
      { Files := [⟨"a.yaml", "first"⟩, ⟨"b.yaml", "other"⟩, ⟨"a.yaml", "last"⟩], Err := none } }

/-- Every node of `fs` is still there, unchanged, in `fs1`. -/
def FS.Extends (fs fs1 : FS) : Prop :=
  ∀ p n, fs.node p = some n → fs1.node p = some n

/-- A file system with the directories `/` and `/tmp` and nothing else, in which
writing `/tmp/demo/templates/service.yaml` is refused. -/
def tmpFS : FS :=
  { node := fun p => if p = [] ∨ p = ["tmp"] then some .dir else none,
    denied := fun p => p = ["tmp", "demo", "templates", "service.yaml"],
    cwd := some ["home"] }

/-- A file system with the directories `/` and `/tmp`, the regular file
`/tmp/demo` and, in the chart directory `/tmp/web`, an edited `Chart.yaml`. -/
def busyFS : FS :=
  { node := fun p =>
      if p = [] ∨ p = ["tmp"] ∨ p = ["tmp", "web"] then some .dir
      else if p = ["tmp", "demo"] then some (.file "notes")
      else if p = ["tmp", "web", "Chart.yaml"] then some (.file "name: edited")
      else none,
    denied := fun _ => false,
    cwd := some ["tmp"] }


/-! ## Theorems: `transform` -/

/-- Skipping `k` characters during the scan is the scan of the list without its
first `k` characters. -/
theorem replaceScan_skip (old new : List Char) (k : Nat) (s : List Char) :
    replaceScan old new k s = replaceScan old new 0 (s.drop k) := by
  induction s generalizing k with
  | nil => cases k <;> simp [replaceScan]
  | cons c t ih =>
    cases k with
    | zero => simp
    | succ k => simp [replaceScan, ih k]

/-- An occurrence of a non-empty `old` at the head of the list is replaced and
the scan resumes right after it. -/
theorem replaceScan_old_append (old new rest : List Char) (h : old ≠ []) :
    replaceScan old new 0 (old ++ rest) = new ++ replaceScan old new 0 rest := by
  cases old with
  | nil => exact absurd rfl h
  | cons c t =>
    have hp : (c :: t).isPrefixOf (c :: (t ++ rest)) = true := by
      rw [List.isPrefixOf_iff_prefix]
      exact List.prefix_append (c :: t) rest
    rw [List.cons_append, replaceScan, if_pos hp, replaceScan_skip]
    simp

/-- A stretch `p` in which no position starts an occurrence of `old` is copied
unchanged. -/
theorem replaceScan_copy (old new : List Char) (p tail : List Char)
    (h : ∀ q, q ≠ [] → q <:+ p → ¬ old <+: q ++ tail) :
    replaceScan old new 0 (p ++ tail) = p ++ replaceScan old new 0 tail := by
  induction p with
  | nil => simp
  | cons c t ih =>
    have hnot : ¬ (old.isPrefixOf (c :: (t ++ tail)) = true) := by
      rw [List.isPrefixOf_iff_prefix]
      exact h (c :: t) (by simp) (List.suffix_refl _)
    rw [List.cons_append, replaceScan, if_neg hnot, List.cons_append]
    congr 1
    exact ih (fun q hq hs => h q hq (hs.trans (List.suffix_cons c t)))

/-- The placeholder starts with `<` and holds no other `<`. -/
theorem chartNameToken_no_overlap :
    ∀ k, k < chartNameToken.data.length → 0 < k →
      chartNameToken.data[k]? ≠ chartNameToken.data[0]? := by
  decide

/-- No position of a stretch without the placeholder starts an occurrence of it,
whether the stretch is followed by a placeholder or ends the string. -/
theorem chartNameToken_starts_nowhere (p q rest : List Char)
    (hfree : ¬ chartNameToken.data <:+: p) (hq : q ≠ []) (hs : q <:+ p) :
    ¬ chartNameToken.data <+: q ++ (chartNameToken.data ++ rest) ∧
      ¬ chartNameToken.data <+: q ++ [] := by
  constructor
  · intro hpre
    by_cases hlen : chartNameToken.data.length ≤ q.length
    · apply hfree
      have h1 : chartNameToken.data <+: q :=
        List.prefix_of_prefix_length_le hpre (List.prefix_append _ _) hlen
      exact h1.isInfix.trans hs.isInfix
    · have hk : q.length < chartNameToken.data.length := Nat.lt_of_not_le hlen
      have hpos : 0 < q.length := List.length_pos.mpr hq
      apply chartNameToken_no_overlap q.length hk hpos
      obtain ⟨u, hu⟩ := hpre
      have h2 : (q ++ (chartNameToken.data ++ rest))[q.length]? = chartNameToken.data[0]? := by
        rw [List.getElem?_append_right (Nat.le_refl _)]
        simp
        rfl
      have h3 : (chartNameToken.data ++ u)[q.length]? = chartNameToken.data[q.length]? :=
        List.getElem?_append_left hk
      rw [← h3, hu, h2]
  · intro hpre
    rw [List.append_nil] at hpre
    exact hfree (hpre.isInfix.trans hs.isInfix)

/-- The scan over pieces free of the placeholder, separated by the placeholder. -/
theorem replaceScan_interleave (r : String) (ps : List String)
    (hfree : ∀ p ∈ ps, ¬ Contains p chartNameToken) :
    replaceScan chartNameToken.data r.data 0 (interleave chartNameToken ps).data =
      (interleave r ps).data := by
  induction ps with
  | nil => simp [interleave, replaceScan]
  | cons p rest ih =>
    have hp : ¬ chartNameToken.data <:+: p.data := hfree p (List.mem_cons_self _ _)
    cases rest with
    | nil =>
      have h := replaceScan_copy chartNameToken.data r.data p.data []
        (fun q hq hs => (chartNameToken_starts_nowhere p.data q [] hp hq hs).2)
      simpa [interleave, replaceScan] using h
    | cons q rest =>
      have hrest := ih (fun x hx => hfree x (List.mem_cons_of_mem _ hx))
      have h := replaceScan_copy chartNameToken.data r.data p.data
        (chartNameToken.data ++ (interleave chartNameToken (q :: rest)).data)
        (fun q' hq hs => (chartNameToken_starts_nowhere p.data q' _ hp hq hs).1)
      have htok : chartNameToken.data ≠ [] := by decide
      simp only [interleave, String.data_append, List.append_assoc]
      rw [h, replaceScan_old_append _ _ _ htok, hrest]

/-- C9: `transform` substitutes every occurrence of the placeholder: for every
replacement `r` and every list of pieces (empty or not) none of which contains
`<CHARTNAME>`, `transform` of the pieces separated by `<CHARTNAME>` is the pieces
separated by `r`; a source without the placeholder (one piece) is unchanged. -/
theorem transform_replaces_every_occurrence (r : String) (ps : List String)
    (hfree : ∀ p ∈ ps, ¬ Contains p chartNameToken) :
    transform (interleave chartNameToken ps) r = interleave r ps ∧
      (∀ p, ps = [p] → transform p r = p) := by
  have hmain : transform (interleave chartNameToken ps) r = interleave r ps := by
    have htok : ¬ chartNameToken.data = [] := by decide
    unfold transform ReplaceAll
    rw [if_neg htok, replaceScan_interleave r ps hfree]
  refine ⟨hmain, ?_⟩
  intro p hp
  subst hp
  simpa [interleave] using hmain

/-- Witness of C9 on three pieces, one of them empty. -/
theorem transform_replaces_every_occurrence_witness :
    transform (interleave chartNameToken ["name: ", "-", ""]) "demo" =
        interleave "demo" ["name: ", "-", ""] ∧
      (∀ p, ["name: ", "-", ""] = [p] → transform p "demo" = p) :=
  transform_replaces_every_occurrence "demo" ["name: ", "-", ""] (by decide)

/-! ## Theorems: `CreateFrom` -/

/-- C5, as stated, fails: scaffolding the chart named `starter` with the metadata
of `demo` hands `SaveDir` a template rewritten with `demo`, whereas the rule keyed
to the loaded chart's own name would give `starter`. -/
theorem CreateFrom_loaded_name_counterexample :
    CreateFrom (fun _ => Except.ok starterChart) (fun c _ => c.Templates.map File.Data)
        (some demoMetadata) "dest" "starter" = Except.ok ["name: demo-svc"] ∧
      starterChart.Templates.map (fun t => transform t.Data starterChart.Name) =
        ["name: starter-svc"] ∧
      (createFromChart (some demoMetadata) starterChart).Templates.map File.Data ≠
        starterChart.Templates.map (fun t => transform t.Data starterChart.Name) := by
  refine ⟨?_, ?_, ?_⟩
  · rfl
  · decide
  · decide

/-- C5, amended: when the loader returns `c` for `src`, `CreateFrom` hands
`SaveDir` the chart `createFromChart m c`, whose metadata is `m`, whose templates
have the length, names and order of those of `c`, and in which each template's
data is `transform` of the original data with the name carried by the new
metadata `m` (the empty name when `m` is nil); values and dependencies are kept. -/
theorem CreateFrom_rewrites_with_new_name {ρ : Type} (Load : String → Except Error Chart)
    (SaveDir : Chart → String → ρ) (m : Option Metadata) (dest src : String) (c : Chart)
    (hload : Load src = Except.ok c) :
    CreateFrom Load SaveDir m dest src = Except.ok (SaveDir (createFromChart m c) dest) ∧
      (createFromChart m c).Metadata = m ∧
      (createFromChart m c).Templates.length = c.Templates.length ∧
      (createFromChart m c).Templates.map File.Name = c.Templates.map File.Name ∧
      (createFromChart m c).Templates.map File.Data =
        c.Templates.map (fun t => transform t.Data
          (match m with
           | none => ""
           | some md => md.Name)) ∧
      (createFromChart m c).Values = c.Values ∧
      (createFromChart m c).Dependencies = c.Dependencies := by
  cases c with
  | mk m0 ts vs ds =>
    refine ⟨?_, ?_, ?_, ?_, ?_, ?_, ?_⟩
    · simp [CreateFrom, hload]
    · rfl
    · simp [createFromChart, Chart.setMetadata, Chart.setTemplates, Chart.Templates]
    · simp [createFromChart, Chart.setMetadata, Chart.setTemplates, Chart.Templates,
        Function.comp_def]
    · cases m <;>
        simp [createFromChart, Chart.setMetadata, Chart.setTemplates, Chart.Templates,
          Chart.Name, Chart.Metadata, Function.comp_def]
    · rfl
    · rfl

/-- Witness of the amended C5 on the starter chart and the metadata of `demo`. -/
theorem CreateFrom_rewrites_with_new_name_witness :
    CreateFrom (fun _ => Except.ok starterChart) (fun c _ => c.Templates)
        (some demoMetadata) "dest" "starter" =
      Except.ok ((fun (c : Chart) (_ : String) => c.Templates)
        (createFromChart (some demoMetadata) starterChart) "dest") ∧
      (createFromChart (some demoMetadata) starterChart).Metadata = some demoMetadata ∧
      (createFromChart (some demoMetadata) starterChart).Templates.length =
        starterChart.Templates.length ∧
      (createFromChart (some demoMetadata) starterChart).Templates.map File.Name =
        starterChart.Templates.map File.Name ∧
      (createFromChart (some demoMetadata) starterChart).Templates.map File.Data =
        starterChart.Templates.map (fun t => transform t.Data
          (match some demoMetadata with
           | none => ""
           | some md => md.Name)) ∧
      (createFromChart (some demoMetadata) starterChart).Values = starterChart.Values ∧
      (createFromChart (some demoMetadata) starterChart).Dependencies =
        starterChart.Dependencies :=
  CreateFrom_rewrites_with_new_name (fun _ => Except.ok starterChart)
    (fun c _ => c.Templates) (some demoMetadata) "dest" "starter" starterChart rfl

/-! ## Theorems: `Render` -/

/-- The path built for a template is `chart/` followed by its name. -/
theorem Sprintf_chart_path (name : String) : Sprintf "chart/%s" [name] = "chart/" ++ name := by
  apply String.ext
  simp [Sprintf, sprintfScan]

/-- C6 fails on the code: with a backend whose run reports a template error,
`Render` still returns a non-nil (empty) map and a nil error. -/
theorem Render_ignores_backend_error :
    (failingBackend.RunWithFiles (renderPaths webChart)).Err = some "template error" ∧
      YttEngine.Render ⟨false, false⟩ failingBackend webChart [] = (some [], none) ∧
      Render failingBackend webChart [] = (some [], none) := by
  refine ⟨rfl, rfl, rfl⟩

/-- C8 fails on the code: for the chart `web` with its dependency `svc`, the chart
tree holds two templates but `Render` hands the backend the path of one, the
chart's own; the dependency's template is not passed and has no output. -/
theorem Render_omits_dependency_templates :
    webChart.allTemplates.map File.Name = ["templates/web.yaml", "templates/svc.yaml"] ∧
      renderPaths webChart = ["chart/templates/web.yaml"] ∧
      Render echoBackend webChart [] = (some [("chart/templates/web.yaml", "rendered")], none) := by
  refine ⟨?_, ?_, ?_⟩
  · decide
  · decide
  · rfl

/-- C10: `Render` does not depend on the values: with the same backend, two calls
on one chart with any two values tables return the same map and error, and so do
two calls on charts whose own templates have the same names in the same order,
whatever their values, template data and dependencies; the paths handed to the
backend are `chart/` followed by each template name, in template order. -/
theorem Render_independent_of_values {ι : Type} (e1 e2 : YttEngine) (be : Backend ι)
    (c1 c2 : Chart) (v1 v2 : Values)
    (hnames : c1.Templates.map File.Name = c2.Templates.map File.Name) :
    YttEngine.Render e1 be c1 v1 = YttEngine.Render e1 be c1 v2 ∧
      Render be c1 v1 = Render be c1 v2 ∧
      YttEngine.Render e1 be c1 v1 = YttEngine.Render e2 be c2 v2 ∧
      Render be c1 v1 = Render be c2 v2 ∧
      renderPaths c1 = (c1.Templates.map File.Name).map (fun n => "chart/" ++ n) := by
  have hpaths : ∀ c : Chart,
      renderPaths c = (c.Templates.map File.Name).map (fun n => "chart/" ++ n) := by
    intro c
    simp [renderPaths, Sprintf_chart_path, Function.comp_def]
  have heq : renderPaths c1 = renderPaths c2 := by rw [hpaths c1, hpaths c2, hnames]
  refine ⟨rfl, rfl, ?_, ?_, hpaths c1⟩
  · simp only [YttEngine.Render, heq]
  · simp only [Render, YttEngine.Render, heq]

/-- Witness of C10: the chart `web` with its dependency and a chart with the same
template name, other data, other metadata and no dependency render alike under
different values. -/
theorem Render_independent_of_values_witness :
    YttEngine.Render ⟨false, false⟩ echoBackend webChart [] =
        YttEngine.Render ⟨false, false⟩ echoBackend webChart [("port", Value.scalar "80")] ∧
      Render echoBackend webChart [] = Render echoBackend webChart [("port", Value.scalar "80")] ∧
      YttEngine.Render ⟨false, false⟩ echoBackend webChart [] =
        YttEngine.Render ⟨true, true⟩ echoBackend
          (Chart.mk none [⟨"templates/web.yaml", "kind: Other"⟩] [] [])
          [("port", Value.scalar "80")] ∧
      Render echoBackend webChart [] =
        Render echoBackend (Chart.mk none [⟨"templates/web.yaml", "kind: Other"⟩] [] [])
          [("port", Value.scalar "80")] ∧
      renderPaths webChart = (webChart.Templates.map File.Name).map (fun n => "chart/" ++ n) :=
  Render_independent_of_values ⟨false, false⟩ ⟨true, true⟩ echoBackend webChart
    (Chart.mk none [⟨"templates/web.yaml", "kind: Other"⟩] [] []) []
    [("port", Value.scalar "80")] rfl

/-! ## Theorems: the map built by `Render` -/

/-- A key is in the map after `m[k] = v` exactly if it is `k` or was there. -/
theorem GoMap.mem_keys_set (m : GoMap) (k v x : String) :
    x ∈ GoMap.keys (GoMap.set m k v) ↔ x = k ∨ x ∈ GoMap.keys m := by
  simp only [GoMap.keys, GoMap.set, List.map_cons, List.mem_cons, List.mem_map, List.mem_filter]
  constructor
  · rintro (h | ⟨a, ⟨ha, -⟩, rfl⟩)
    · exact Or.inl h
    · exact Or.inr ⟨a, ha, rfl⟩
  · rintro (h | ⟨a, ha, rfl⟩)
    · exact Or.inl h
    · by_cases hk : a.1 = k
      · exact Or.inl hk
      · exact Or.inr ⟨a, ⟨ha, by simpa using hk⟩, rfl⟩

/-- The assignment `m[k] = v` keeps the keys distinct. -/
theorem GoMap.nodup_keys_set (m : GoMap) (k v : String) (h : (GoMap.keys m).Nodup) :
    (GoMap.keys (GoMap.set m k v)).Nodup := by
  simp only [GoMap.keys, GoMap.set, List.map_cons, List.nodup_cons, List.mem_map,
    List.mem_filter]
  constructor
  · rintro ⟨a, ⟨-, ha⟩, hk⟩
    simp [hk] at ha
  · exact (List.filter_sublist _).map _ |>.nodup h

/-- Lookup after `m[k] = v`. -/
theorem GoMap.get?_set (m : GoMap) (k v x : String) :
    GoMap.get? (GoMap.set m k v) x = if x = k then some v else GoMap.get? m x := by
  by_cases hx : x = k
  · subst hx
    simp [GoMap.get?, GoMap.set]
  · have hkx : ¬ k = x := fun h => hx h.symm
    simp only [GoMap.get?, GoMap.set, if_neg hx]
    rw [List.find?_cons_of_neg _ (by simpa using hkx)]
    congr 1
    induction m with
    | nil => rfl
    | cons a t ih =>
      by_cases hak : a.1 = k
      · have hax : ¬ a.1 = x := fun h => hx (h.symm.trans hak)
        rw [List.filter_cons_of_neg (by simpa using hak),
          List.find?_cons_of_neg _ (by simpa using hax)]
        exact ih
      · rw [List.filter_cons_of_pos (by simpa using hak)]
        by_cases hax : a.1 = x
        · rw [List.find?_cons_of_pos _ (by simpa using hax),
            List.find?_cons_of_pos _ (by simpa using hax)]
        · rw [List.find?_cons_of_neg _ (by simpa using hax),
            List.find?_cons_of_neg _ (by simpa using hax)]
          exact ih

/-- The assignment of a fresh key adds one entry. -/
theorem GoMap.length_set_fresh (m : GoMap) (k v : String) (h : k ∉ GoMap.keys m) :
    (GoMap.set m k v).length = m.length + 1 := by
  have hfil : m.filter (fun e => decide (e.1 ≠ k)) = m := by
    rw [List.filter_eq_self]
    intro a ha
    have : a.1 ≠ k := fun hk => h (by rw [← hk]; exact List.mem_map_of_mem _ ha)
    simpa using this
  simp only [GoMap.set, List.length_cons, hfil]

/-- The loop over the output files, started from any map with distinct keys. -/
theorem collectOutputs_spec (files : List OutputFile) (m0 : GoMap) :
    (∀ k, k ∈ GoMap.keys (collectOutputs m0 files) ↔
        (∃ f ∈ files, f.RelativePath = k) ∨ k ∈ GoMap.keys m0) ∧
      ((GoMap.keys m0).Nodup → (GoMap.keys (collectOutputs m0 files)).Nodup) ∧
      (∀ k, GoMap.get? (collectOutputs m0 files) k =
        ((files.reverse.find? (fun f => f.RelativePath = k)).map OutputFile.Bytes).or
          (GoMap.get? m0 k)) ∧
      ((files.map OutputFile.RelativePath).Nodup →
        (∀ f ∈ files, f.RelativePath ∉ GoMap.keys m0) →
        (collectOutputs m0 files).length = m0.length + files.length) := by
  induction files generalizing m0 with
  | nil => simp [collectOutputs]
  | cons f rest ih =>
    obtain ⟨hk, hn, hg, hl⟩ := ih (GoMap.set m0 f.RelativePath f.Bytes)
    have hstep : collectOutputs m0 (f :: rest) =
        collectOutputs (GoMap.set m0 f.RelativePath f.Bytes) rest := rfl
    rw [hstep]
    refine ⟨?_, ?_, ?_, ?_⟩
    · intro k
      rw [hk k, GoMap.mem_keys_set]
      simp only [List.mem_cons, exists_eq_or_imp]
      constructor
      · rintro (h | h | h)
        · exact Or.inl (Or.inr h)
        · exact Or.inl (Or.inl h.symm)
        · exact Or.inr h
      · rintro ((h | h) | h)
        · exact Or.inr (Or.inl h.symm)
        · exact Or.inl h
        · exact Or.inr (Or.inr h)
    · intro h0
      exact hn (GoMap.nodup_keys_set m0 _ _ h0)
    · intro k
      rw [hg k, GoMap.get?_set, List.reverse_cons, List.find?_append]
      cases hfind : List.find? (fun f => decide (f.RelativePath = k)) rest.reverse with
      | some g => simp
      | none =>
        by_cases hfk : f.RelativePath = k
        · simp [hfk]
        · have hkf : ¬ k = f.RelativePath := fun h => hfk h.symm
          simp [hfk, hkf]
    · intro hnd hfresh
      rw [List.map_cons, List.nodup_cons] at hnd
      have hf : f.RelativePath ∉ GoMap.keys m0 := hfresh f (List.mem_cons_self _ _)
      rw [hl hnd.2, GoMap.length_set_fresh m0 _ _ hf, List.length_cons]
      · omega
      · intro g hg' hmem
        rw [GoMap.mem_keys_set] at hmem
        rcases hmem with h | h
        · exact hnd.1 (by rw [← h]; exact List.mem_map_of_mem _ hg')
        · exact hfresh g (List.mem_cons_of_mem _ hg') h

/-- C7: `Render` keys its output by the backend-reported relative path: when the
backend's input is read, `Render` returns a map and a nil error; the keys of the
map are distinct and are exactly the relative paths of the output files; the value
at a key is the bytes of the last output file reporting that path; and when the
relative paths are pairwise distinct the map has one entry per output file. -/
theorem Render_keys_by_relative_path {ι : Type} (e : YttEngine) (be : Backend ι)
    (chrt : Chart) (values : Values) (templates : ι)
    (hinput : be.Input (renderPaths chrt) = Except.ok templates) :
    ∃ m : GoMap, YttEngine.Render e be chrt values = (some m, none) ∧
      Render be chrt values = (some m, none) ∧
      (GoMap.keys m).Nodup ∧
      (∀ k, k ∈ GoMap.keys m ↔ ∃ f ∈ (be.RunWithFiles templates).Files, f.RelativePath = k) ∧
      (∀ k, GoMap.get? m k =
        (((be.RunWithFiles templates).Files.reverse.find?
          (fun f => f.RelativePath = k)).map OutputFile.Bytes)) ∧
      (((be.RunWithFiles templates).Files.map OutputFile.RelativePath).Nodup →
        m.length = (be.RunWithFiles templates).Files.length) := by
  obtain ⟨hk, hn, hg, hl⟩ := collectOutputs_spec (be.RunWithFiles templates).Files []
  refine ⟨collectOutputs [] (be.RunWithFiles templates).Files, ?_, ?_, ?_, ?_, ?_, ?_⟩
  · simp [YttEngine.Render, hinput, collectOutputs]
  · simp [Render, YttEngine.Render, hinput, collectOutputs]
  · exact hn (by simp [GoMap.keys])
  · intro k
    rw [hk k]
    simp [GoMap.keys]
  · intro k
    rw [hg k]
    simp [GoMap.get?]
  · intro hnd
    rw [hl hnd (by simp [GoMap.keys])]
    simp

/-- Witness of C7 on a backend that emits `a.yaml` twice: the later bytes win. -/
theorem Render_keys_by_relative_path_witness :
    ∃ m : GoMap, YttEngine.Render ⟨false, false⟩ repeatingBackend webChart [] = (some m, none) ∧
      Render repeatingBackend webChart [] = (some m, none) ∧
      (GoMap.keys m).Nodup ∧
      (∀ k, k ∈ GoMap.keys m ↔
        ∃ f ∈ (repeatingBackend.RunWithFiles (renderPaths webChart)).Files,
          f.RelativePath = k) ∧
      (∀ k, GoMap.get? m k =
        (((repeatingBackend.RunWithFiles (renderPaths webChart)).Files.reverse.find?
          (fun f => f.RelativePath = k)).map OutputFile.Bytes)) ∧
      (((repeatingBackend.RunWithFiles (renderPaths webChart)).Files.map
          OutputFile.RelativePath).Nodup →
        m.length = (repeatingBackend.RunWithFiles (renderPaths webChart)).Files.length) :=
  Render_keys_by_relative_path ⟨false, false⟩ repeatingBackend webChart []
    (renderPaths webChart) rfl

/-! ## Theorems: the file-system operations -/

/-- Every file system extends itself. -/
theorem FS.Extends.refl (fs : FS) : fs.Extends fs :=
  fun _ _ h => h

/-- Extension composes. -/
theorem FS.Extends.trans {a b c : FS} (hab : a.Extends b) (hbc : b.Extends c) : a.Extends c :=
  fun p n h => hbc p n (hab p n h)

/-- Storing a node at a free path keeps every node. -/
theorem FS.extends_set (fs : FS) (p : Path) (n : Node) (hfree : fs.node p = none) :
    fs.Extends (fs.set p n) := by
  intro q m hq
  by_cases hqp : q = p
  · subst hqp
    rw [hfree] at hq
    cases hq
  · simp [FS.set, hqp, hq]

/-- The node stored by `FS.set` is read back. -/
theorem FS.node_set_self (fs : FS) (p : Path) (n : Node) : (fs.set p n).node p = some n := by
  simp [FS.set]

/-- Go `os.Mkdir` keeps every node. -/
theorem Mkdir_extends (p : Path) (fs : FS) : fs.Extends (Mkdir p fs).2 := by
  unfold Mkdir
  split
  · exact FS.Extends.refl fs
  · next hnone =>
    split
    · split
      · exact FS.Extends.refl fs
      · exact FS.extends_set fs p .dir hnone
    · exact FS.Extends.refl fs
    · exact FS.Extends.refl fs

/-- A successful `os.Mkdir` leaves a directory at the path. -/
theorem Mkdir_ok (p : Path) (fs : FS) (h : (Mkdir p fs).1 = none) :
    (Mkdir p fs).2.node p = some .dir := by
  unfold Mkdir at h ⊢
  cases hn : fs.node p with
  | some n => simp [hn] at h
  | none =>
    simp only [hn] at h ⊢
    cases hp : fs.node p.dropLast with
    | none => simp [hp] at h
    | some n =>
      cases n with
      | file c => simp [hp] at h
      | dir =>
        simp only [hp] at h ⊢
        by_cases hd : fs.denied p = true
        · simp [hd] at h
        · simp [hd, FS.set]

/-- Go `os.MkdirAll` keeps every node. -/
theorem MkdirAllRev_extends (r : List String) (fs : FS) : fs.Extends (MkdirAllRev r fs).2 := by
  induction r generalizing fs with
  | nil =>
    unfold MkdirAllRev
    split
    · exact FS.Extends.refl fs
    · exact FS.Extends.refl fs
    · exact Mkdir_extends [] fs
  | cons c parent ih =>
    unfold MkdirAllRev
    split
    · exact FS.Extends.refl fs
    · exact FS.Extends.refl fs
    · have hpar : fs.Extends
          (if parent = [] then ((none : Option Error), fs) else MkdirAllRev parent fs).2 := by
        split
        · exact FS.Extends.refl fs
        · exact ih fs
      split
      · next err fs1 heq =>
        rw [heq] at hpar
        exact hpar
      · next fs1 heq =>
        rw [heq] at hpar
        have hmk := Mkdir_extends (c :: parent).reverse fs1
        split
        · next fs2 hm =>
          rw [hm] at hmk
          exact hpar.trans hmk
        · next err fs2 hm =>
          rw [hm] at hmk
          split
          · exact hpar.trans hmk
          · exact hpar.trans hmk

/-- A successful `os.MkdirAll` leaves a directory at the path. -/
theorem MkdirAllRev_ok (r : List String) (fs : FS) (h : (MkdirAllRev r fs).1 = none) :
    (MkdirAllRev r fs).2.node r.reverse = some .dir := by
  cases r with
  | nil =>
    unfold MkdirAllRev at h ⊢
    cases hn : fs.node [] with
    | none =>
      simp only [hn] at h ⊢
      exact Mkdir_ok [] fs h
    | some n =>
      cases n with
      | file c => simp [hn] at h
      | dir => simp [hn]
  | cons c parent =>
    unfold MkdirAllRev at h ⊢
    generalize (c :: parent).reverse = p at h ⊢
    cases hn : fs.node p with
    | some n =>
      cases n with
      | file c => simp [hn] at h
      | dir => simp [hn]
    | none =>
      simp only [hn] at h ⊢
      generalize (if parent = [] then ((none : Option Error), fs) else MkdirAllRev parent fs) = X
        at h ⊢
      obtain ⟨e, fs1⟩ := X
      cases e with
      | some err => simp at h
      | none =>
        simp only at h ⊢
        have hmk := Mkdir_ok p fs1
        generalize Mkdir p fs1 = Y at h hmk ⊢
        obtain ⟨e2, fs2⟩ := Y
        cases e2 with
        | none => exact hmk rfl
        | some err =>
          simp only at h ⊢
          cases hn2 : fs2.node p with
          | none => simp [hn2] at h
          | some n =>
            cases n with
            | file c => simp [hn2] at h
            | dir => simp [hn2]

/-! ## Theorems: `Create` -/

/-- Go `os.MkdirAll` keeps every node. -/
theorem MkdirAll_extends (p : Path) (fs : FS) : fs.Extends (MkdirAll p fs).2 :=
  MkdirAllRev_extends p.reverse fs

/-- A successful `os.MkdirAll` leaves a directory at the path. -/
theorem MkdirAll_ok (p : Path) (fs : FS) (h : (MkdirAll p fs).1 = none) :
    (MkdirAll p fs).2.node p = some .dir := by
  have := MkdirAllRev_ok p.reverse fs h
  rwa [List.reverse_reverse] at this

/-- The loop over the sub-directories keeps every node. -/
theorem mkSubdirs_extends (cdir : Path) (ds : List String) (fs : FS) :
    fs.Extends (mkSubdirs cdir ds fs).2 := by
  induction ds generalizing fs with
  | nil => exact FS.Extends.refl fs
  | cons d ds ih =>
    unfold mkSubdirs
    have hmk := MkdirAll_extends (Join cdir [d]) fs
    generalize MkdirAll (Join cdir [d]) fs = X at hmk ⊢
    obtain ⟨e, fs1⟩ := X
    cases e with
    | some err => exact hmk
    | none => exact hmk.trans (ih fs1)

/-- After a successful loop every sub-directory is a directory. -/
theorem mkSubdirs_ok (cdir : Path) (ds : List String) (fs : FS)
    (h : (mkSubdirs cdir ds fs).1 = none) :
    ∀ d ∈ ds, (mkSubdirs cdir ds fs).2.node (Join cdir [d]) = some .dir := by
  induction ds generalizing fs with
  | nil => intro d hd; cases hd
  | cons d0 ds ih =>
    unfold mkSubdirs at h ⊢
    have hok := MkdirAll_ok (Join cdir [d0]) fs
    generalize MkdirAll (Join cdir [d0]) fs = X at h hok ⊢
    obtain ⟨e, fs1⟩ := X
    cases e with
    | some err => simp at h
    | none =>
      simp only at h ⊢
      intro d hd
      rcases List.mem_cons.mp hd with rfl | hd
      · exact mkSubdirs_extends cdir ds fs1 _ _ (hok rfl)
      · exact ih fs1 h d hd

/-- The loop over the scaffold files keeps every node: a path that holds
something is skipped. -/
theorem writeFiles_extends (files : List (Path × String)) (fs : FS) :
    fs.Extends (writeFiles files fs).2 := by
  induction files generalizing fs with
  | nil => exact FS.Extends.refl fs
  | cons f rest ih =>
    unfold writeFiles Stat
    cases hn : fs.node f.1 with
    | some n => exact ih fs
    | none =>
      simp only
      have hw : fs.Extends (WriteFile f.1 f.2 fs).2 := by
        unfold WriteFile
        simp only [hn]
        split
        · split
          · exact FS.Extends.refl fs
          · exact FS.extends_set fs f.1 _ hn
        · exact FS.Extends.refl fs
        · exact FS.Extends.refl fs
      generalize WriteFile f.1 f.2 fs = X at hw ⊢
      obtain ⟨e, fs1⟩ := X
      cases e with
      | some err => exact hw
      | none => exact hw.trans (ih fs1)

/-- A successful `ioutil.WriteFile` leaves something at the path. -/
theorem WriteFile_ok (p : Path) (data : String) (fs : FS) (h : (WriteFile p data fs).1 = none) :
    ((WriteFile p data fs).2.node p).isSome = true := by
  unfold WriteFile at h ⊢
  cases hn : fs.node p with
  | some n =>
    cases n with
    | dir => simp [hn] at h
    | file c =>
      simp only [hn] at h ⊢
      by_cases hd : fs.denied p = true
      · simp [hd] at h
      · simp [hd, FS.set]
  | none =>
    simp only [hn] at h ⊢
    cases hp : fs.node p.dropLast with
    | none => simp [hp] at h
    | some n =>
      cases n with
      | file c => simp [hp] at h
      | dir =>
        simp only [hp] at h ⊢
        by_cases hd : fs.denied p = true
        · simp [hd] at h
        · simp [hd, FS.set]

/-- After a successful loop every scaffold path holds something. -/
theorem writeFiles_ok (files : List (Path × String)) (fs : FS)
    (h : (writeFiles files fs).1 = none) :
    ∀ f ∈ files, ((writeFiles files fs).2.node f.1).isSome = true := by
  induction files generalizing fs with
  | nil => intro f hf; cases hf
  | cons f0 rest ih =>
    have hext := writeFiles_extends rest
    unfold writeFiles Stat at h ⊢
    cases hn : fs.node f0.1 with
    | some n =>
      simp only [hn] at h ⊢
      intro f hf
      rcases List.mem_cons.mp hf with rfl | hf
      · rw [hext fs _ _ hn]; rfl
      · exact ih fs h f hf
    | none =>
      simp only [hn] at h ⊢
      have hw := WriteFile_ok f0.1 f0.2 fs
      generalize WriteFile f0.1 f0.2 fs = X at h hw ⊢
      obtain ⟨e, fs1⟩ := X
      cases e with
      | some err => simp at h
      | none =>
        simp only at h ⊢
        intro f hf
        rcases List.mem_cons.mp hf with rfl | hf
        · have h1 := hw rfl
          simp only at h1
          obtain ⟨n, hn1⟩ := Option.isSome_iff_exists.mp h1
          rw [hext fs1 _ _ hn1]; rfl
        · exact ih fs1 h f hf

/-- The stages of `Create`: either the destination is rejected, with an error and
the file system as it was, or `dir` resolves to an existing directory `path` and
the result is that of the first failing stage among `MkdirAll`, the
sub-directories and the files, or of the last stage. -/
theorem Create_stages (name dir : String) (fs : FS) :
    ((Create name dir fs).err ≠ none ∧ (Create name dir fs).fs = fs ∧
        ∀ path, Abs fs.cwd dir = Except.ok path →
          fs.node path ≠ some .dir ∨ ∃ c, fs.node (Join path [name]) = some (.file c)) ∨
      ∃ path, Abs fs.cwd dir = Except.ok path ∧ fs.node path = some .dir ∧
        (∀ c, fs.node (Join path [name]) ≠ some (.file c)) ∧
        Create name dir fs =
          if (MkdirAll (Join path [name]) fs).1.isSome then
            ⟨render (Join path [name]), (MkdirAll (Join path [name]) fs).1,
              (MkdirAll (Join path [name]) fs).2⟩
          else if (mkSubdirs (Join path [name]) [TemplatesDir, ChartsDir]
              (MkdirAll (Join path [name]) fs).2).1.isSome then
            ⟨render (Join path [name]),
              (mkSubdirs (Join path [name]) [TemplatesDir, ChartsDir]
                (MkdirAll (Join path [name]) fs).2).1,
              (mkSubdirs (Join path [name]) [TemplatesDir, ChartsDir]
                (MkdirAll (Join path [name]) fs).2).2⟩
          else
            ⟨render (Join path [name]),
              (writeFiles (scaffoldFiles (Join path [name]) name)
                (mkSubdirs (Join path [name]) [TemplatesDir, ChartsDir]
                  (MkdirAll (Join path [name]) fs).2).2).1,
              (writeFiles (scaffoldFiles (Join path [name]) name)
                (mkSubdirs (Join path [name]) [TemplatesDir, ChartsDir]
                  (MkdirAll (Join path [name]) fs).2).2).2⟩ := by
  unfold Create Stat
  cases habs : Abs fs.cwd dir with
  | error err =>
    left
    refine ⟨by simp, rfl, ?_⟩
    intro path hp
    cases hp
  | ok path =>
    simp only
    cases hn : fs.node path with
    | none =>
      left
      refine ⟨by simp, rfl, ?_⟩
      intro p hp
      cases hp
      exact Or.inl (by simp [hn])
    | some n =>
      cases n with
      | file c =>
        left
        refine ⟨by simp [Node.IsDir], by simp [Node.IsDir], ?_⟩
        intro p hp
        cases hp
        exact Or.inl (by simp [hn])
      | dir =>
        simp only [Node.IsDir, Bool.not_true, Bool.false_eq_true, if_false]
        cases hc : fs.node (Join path [name]) with
        | some m =>
          cases m with
          | file c =>
            left
            refine ⟨by simp [Node.IsDir], by simp [Node.IsDir], ?_⟩
            intro p hp
            cases hp
            exact Or.inr ⟨c, hc⟩
          | dir =>
            right
            refine ⟨path, rfl, hn, by simp [hc], ?_⟩
            simp only [Node.IsDir, Bool.not_true, Bool.false_eq_true, if_false]
            generalize MkdirAll (Join path [name]) fs = X
            obtain ⟨e, fs1⟩ := X
            cases e with
            | some err => simp
            | none =>
              simp only [Option.isSome_none, Bool.false_eq_true, if_false]
              generalize mkSubdirs (Join path [name]) [TemplatesDir, ChartsDir] fs1 = Y
              obtain ⟨e2, fs2⟩ := Y
              cases e2 with
              | some err => simp
              | none =>
                simp only [Option.isSome_none, Bool.false_eq_true, if_false]
                generalize writeFiles (scaffoldFiles (Join path [name]) name) fs2 = Z
                obtain ⟨e3, fs3⟩ := Z
                cases e3 <;> rfl
        | none =>
          right
          refine ⟨path, rfl, hn, by simp [hc], ?_⟩
          simp only [Bool.false_eq_true, if_false]
          generalize MkdirAll (Join path [name]) fs = X
          obtain ⟨e, fs1⟩ := X
          cases e with
          | some err => simp
          | none =>
            simp only [Option.isSome_none, Bool.false_eq_true, if_false]
            generalize mkSubdirs (Join path [name]) [TemplatesDir, ChartsDir] fs1 = Y
            obtain ⟨e2, fs2⟩ := Y
            cases e2 with
            | some err => simp
            | none =>
              simp only [Option.isSome_none, Bool.false_eq_true, if_false]
              generalize writeFiles (scaffoldFiles (Join path [name]) name) fs2 = Z
              obtain ⟨e3, fs3⟩ := Z
              cases e3 <;> rfl

/-- Every node that exists before `Create` is there, unchanged, after it. -/
theorem Create_extends (name dir : String) (fs : FS) : fs.Extends (Create name dir fs).fs := by
  rcases Create_stages name dir fs with ⟨-, hfs, -⟩ | ⟨path, -, -, -, heq⟩
  · rw [hfs]
    exact FS.Extends.refl fs
  · rw [heq]
    have h1 := MkdirAll_extends (Join path [name]) fs
    have h2 := mkSubdirs_extends (Join path [name]) [TemplatesDir, ChartsDir]
      (MkdirAll (Join path [name]) fs).2
    have h3 := writeFiles_extends (scaffoldFiles (Join path [name]) name)
      (mkSubdirs (Join path [name]) [TemplatesDir, ChartsDir]
        (MkdirAll (Join path [name]) fs).2).2
    split
    · exact h1
    · split
      · exact h1.trans h2
      · exact (h1.trans h2).trans h3

/-- The scaffold paths below a cleaned chart directory. -/
theorem scaffoldFiles_paths (cdir : Path) (name : String) :
    (scaffoldFiles cdir name).map Prod.fst =
      [cdir ++ ["Chart.yaml"], cdir ++ ["templates", "values.yaml"], cdir ++ [".helmignore"],
        cdir ++ ["templates", "ingress.yaml"], cdir ++ ["templates", "deployment.yaml"],
        cdir ++ ["templates", "service.yaml"], cdir ++ ["templates", "NOTES.txt"],
        cdir ++ ["templates", "helpers.star"], cdir ++ ["templates", "helpers.lib.yml"]] := by
  simp [scaffoldFiles, Join, cleanOnto, cleanStep, splitSep, splitSepAux, ChartfileName,
    TemplatesDir, ValuesfileName, IgnorefileName, IngressFileName, DeploymentName, ServiceName,
    NotesName, HelpersStarName, HelpersLibName]

/-- The two sub-directories below a cleaned chart directory. -/
theorem Join_subdirs (cdir : Path) :
    Join cdir [TemplatesDir] = cdir ++ ["templates"] ∧
      Join cdir [ChartsDir] = cdir ++ ["charts"] := by
  simp [Join, cleanOnto, cleanStep, splitSep, splitSepAux, TemplatesDir, ChartsDir]

/-- C1: `Create` leaves existing files untouched: every regular file that exists
before `Create name dir` still exists after the call with the same content,
whether `Create` returns an error or not; so a file edited after a first call
keeps its edited content through a second call. -/
theorem Create_leaves_existing_files_untouched (name dir : String) (fs : FS) (p : Path)
    (content : String) (hfile : fs.node p = some (.file content)) :
    (Create name dir fs).fs.node p = some (.file content) ∧
      ∀ (q : Path) (edited : String),
        (Create name dir (((Create name dir fs).fs).set q (.file edited))).fs.node q =
          some (.file edited) :=
  ⟨Create_extends name dir fs p _ hfile,
    fun q _ => Create_extends name dir _ q _ (FS.node_set_self _ q _)⟩

/-- Witness of C1: in a chart directory that holds an edited `Chart.yaml`,
`Create` keeps the edited content. -/
theorem Create_leaves_existing_files_untouched_witness :
    (Create "web" "/tmp" busyFS).fs.node ["tmp", "web", "Chart.yaml"] =
        some (.file "name: edited") ∧
      ∀ (q : Path) (edited : String),
        (Create "web" "/tmp" (((Create "web" "/tmp" busyFS).fs).set q (.file edited))).fs.node q =
          some (.file edited) :=
  Create_leaves_existing_files_untouched "web" "/tmp" busyFS ["tmp", "web", "Chart.yaml"]
    "name: edited" (by decide)

/-- C2: `Create` rejects an invalid destination before touching the file system:
if `dir` does not exist, or exists but is not a directory, or `dir/name` exists
and is not a directory, then `Create name dir` returns a non-nil error and the
file system after the call equals the one before it. -/
theorem Create_rejects_invalid_destination (name dir : String) (fs : FS)
    (hbad : ∀ path, Abs fs.cwd dir = Except.ok path →
      fs.node path = none ∨ (∃ c, fs.node path = some (.file c)) ∨
        ∃ c, fs.node (Join path [name]) = some (.file c)) :
    (Create name dir fs).err ≠ none ∧ (Create name dir fs).fs = fs := by
  rcases Create_stages name dir fs with ⟨herr, hfs, -⟩ | ⟨path, habs, hdir, hfree, -⟩
  · exact ⟨herr, hfs⟩
  · rcases hbad path habs with h | ⟨c, h⟩ | ⟨c, h⟩
    · rw [hdir] at h
      cases h
    · rw [hdir] at h
      cases h
    · exact absurd h (hfree c)

/-- Witness of C2: `/tmp/demo` is a regular file, so `Create "demo" "/tmp"` is
rejected. -/
theorem Create_rejects_invalid_destination_witness :
    (Create "demo" "/tmp" busyFS).err ≠ none ∧ (Create "demo" "/tmp" busyFS).fs = busyFS :=
  Create_rejects_invalid_destination "demo" "/tmp" busyFS (by
    intro path hp
    have hpath : path = ["tmp"] := by
      have h : Abs busyFS.cwd "/tmp" = Except.ok ["tmp"] := by rfl
      rw [h] at hp
      cases hp
      rfl
    subst hpath
    exact Or.inr (Or.inr ⟨"notes", by decide⟩))

/-- C3 fails on the code: the chart directory `/tmp/demo` does not exist before
the call, writing `templates/service.yaml` is refused, `Create` returns that
error, and the chart directory made in the call is still there, with the files
written before the failure. -/
theorem Create_keeps_directory_after_failure :
    tmpFS.node ["tmp", "demo"] = none ∧
      (Create "demo" "/tmp" tmpFS).err = some "permission denied" ∧
      (Create "demo" "/tmp" tmpFS).path = "/tmp/demo" ∧
      (Create "demo" "/tmp" tmpFS).fs.node ["tmp", "demo"] = some .dir ∧
      ((Create "demo" "/tmp" tmpFS).fs.node ["tmp", "demo", "Chart.yaml"]).isSome = true ∧
      (Create "demo" "/tmp" tmpFS).fs.node ["tmp", "demo", "templates", "service.yaml"] = none := by
  refine ⟨?_, ?_, ?_, ?_, ?_, ?_⟩ <;> decide

/-- C4: success postcondition of `Create`: if `Create name dir` returns a nil
error, then `dir` resolves to an absolute `path`, the returned string is `path`
joined with `name`, that path and its `templates` and `charts` sub-directories
are directories after the call, and each of the nine scaffold paths exists. -/
theorem Create_success_postcondition (name dir : String) (fs : FS)
    (hok : (Create name dir fs).err = none) :
    ∃ path, Abs fs.cwd dir = Except.ok path ∧
      (Create name dir fs).path = render (Join path [name]) ∧
      (Create name dir fs).fs.node (Join path [name]) = some .dir ∧
      (Create name dir fs).fs.node (Join path [name] ++ ["templates"]) = some .dir ∧
      (Create name dir fs).fs.node (Join path [name] ++ ["charts"]) = some .dir ∧
      ∀ p ∈ [Join path [name] ++ ["Chart.yaml"],
          Join path [name] ++ ["templates", "values.yaml"],
          Join path [name] ++ [".helmignore"],
          Join path [name] ++ ["templates", "ingress.yaml"],
          Join path [name] ++ ["templates", "deployment.yaml"],
          Join path [name] ++ ["templates", "service.yaml"],
          Join path [name] ++ ["templates", "NOTES.txt"],
          Join path [name] ++ ["templates", "helpers.star"],
          Join path [name] ++ ["templates", "helpers.lib.yml"]],
        ((Create name dir fs).fs.node p).isSome = true := by
  rcases Create_stages name dir fs with ⟨herr, -, -⟩ | ⟨path, habs, -, -, heq⟩
  · exact absurd hok herr
  · refine ⟨path, habs, ?_⟩
    rw [heq] at hok ⊢
    have e1 := MkdirAll_ok (Join path [name]) fs
    have e2 := mkSubdirs_ok (Join path [name]) [TemplatesDir, ChartsDir]
      (MkdirAll (Join path [name]) fs).2
    have e3 := writeFiles_ok (scaffoldFiles (Join path [name]) name)
      (mkSubdirs (Join path [name]) [TemplatesDir, ChartsDir]
        (MkdirAll (Join path [name]) fs).2).2
    have x2 := mkSubdirs_extends (Join path [name]) [TemplatesDir, ChartsDir]
      (MkdirAll (Join path [name]) fs).2
    have x3 := writeFiles_extends (scaffoldFiles (Join path [name]) name)
      (mkSubdirs (Join path [name]) [TemplatesDir, ChartsDir]
        (MkdirAll (Join path [name]) fs).2).2
    split at hok
    · next h1 =>
      simp only at hok
      rw [hok] at h1
      cases h1
    · next h1 =>
      split at hok
      · next h2 =>
        simp only at hok
        rw [hok] at h2
        cases h2
      · next h2 =>
        simp only at hok
        rw [if_neg h1, if_neg h2]
        simp only
        have g1 : (MkdirAll (Join path [name]) fs).1 = none := by
          simpa using h1
        have g2 : (mkSubdirs (Join path [name]) [TemplatesDir, ChartsDir]
            (MkdirAll (Join path [name]) fs).2).1 = none := by
          simpa using h2
        have d1 := e1 g1
        have d2 := e2 g2
        have d3 := e3 hok
        have hsub := Join_subdirs (Join path [name])
        refine ⟨trivial, ?_, ?_, ?_, ?_⟩
        · exact x3 _ _ (x2 _ _ d1)
        · rw [← hsub.1]
          exact x3 _ _ (d2 TemplatesDir (by simp))
        · rw [← hsub.2]
          exact x3 _ _ (d2 ChartsDir (by simp))
        · intro p hp
          rw [← scaffoldFiles_paths (Join path [name]) name] at hp
          obtain ⟨f, hf, hfp⟩ := List.mem_map.mp hp
          rw [← hfp]
          exact d3 f hf

/-- Witness of C4: in `/tmp` with nothing refused, `Create "demo" "/tmp"`
succeeds. -/
theorem Create_success_postcondition_witness :
    ∃ path, Abs busyFS.cwd "/tmp" = Except.ok path ∧
      (Create "app" "/tmp" busyFS).path = render (Join path ["app"]) ∧
      (Create "app" "/tmp" busyFS).fs.node (Join path ["app"]) = some .dir ∧
      (Create "app" "/tmp" busyFS).fs.node (Join path ["app"] ++ ["templates"]) = some .dir ∧
      (Create "app" "/tmp" busyFS).fs.node (Join path ["app"] ++ ["charts"]) = some .dir ∧
      ∀ p ∈ [Join path ["app"] ++ ["Chart.yaml"],
          Join path ["app"] ++ ["templates", "values.yaml"],
          Join path ["app"] ++ [".helmignore"],
          Join path ["app"] ++ ["templates", "ingress.yaml"],
          Join path ["app"] ++ ["templates", "deployment.yaml"],
          Join path ["app"] ++ ["templates", "service.yaml"],
          Join path ["app"] ++ ["templates", "NOTES.txt"],
          Join path ["app"] ++ ["templates", "helpers.star"],
          Join path ["app"] ++ ["templates", "helpers.lib.yml"]],
        ((Create "app" "/tmp" busyFS).fs.node p).isSome = true :=
  Create_success_postcondition "app" "/tmp" busyFS (by decide)

end Helm
